import Mathlib

/-!
Verification development for the redis-websocket-api repository.

We give a shallow embedding of the protocol, dispatch, filter and geo
components (handler.py, protocol.py, geo_protocol.py, exceptions.py) and
prove or refute the frozen claims about them.

Modelling conventions:
- JSON documents (the output of json.loads) are the inductive type Doc;
  numbers are rationals (the claims about coordinates are order
  comparisons, faithfully represented over the rationals).
- Raw backend payloads are RawValue: either a string that decodes to a
  document or a string that fails to decode.  The JSON grammar itself is
  an external collaborator (the json standard library module), so decoding
  is represented by this two-case classification.
- Exceptions are represented by Except with the error classification of
  exceptions.py: HandlerError.remote for RemoteMessageHandlerError and
  HandlerError.internal for InternalMessageHandlerError.  The message
  strings carried by the Python exceptions are irrelevant to the claims
  and are omitted.
- Filters are functions Doc -> Bool x Doc: the returned Bool is the
  Python return value, the returned Doc makes the in-place mutation that
  Python filters may perform (the projection filter does) explicit.
- Real time (the timestamp field of outbound frames) and the asyncio task
  machinery are outside the embedding; outbound frames carry source,
  content and client_reference, and a session is modelled by the ordered
  list of frames it sends.
-/

namespace RedisWs

/-- Decoded JSON document (result of json.loads). -/
inductive Doc where
  | null
  | bool (b : Bool)
  | num (q : ℚ)
  | str (s : String)
  | arr (items : List Doc)
  | obj (fields : List (String × Doc))

/-- Python dict read access d[key] for string keys: first matching field. -/
def lookupField : List (String × Doc) → String → Option Doc
  | [], _ => none
  | (k, v) :: rest, key => if k = key then some v else lookupField rest key

/-- Python dict assignment d[key] = v: replace the field in place, append if absent. -/
def setField : List (String × Doc) → String → Doc → List (String × Doc)
  | [], key, v => [(key, v)]
  | (k, w) :: rest, key, v =>
      if k = key then (key, v) :: rest else (k, w) :: setField rest key v

theorem lookupField_sizeOf {fields : List (String × Doc)} {key : String} {v : Doc}
    (h : lookupField fields key = some v) : sizeOf v < sizeOf fields := by
  induction fields with
  | nil => simp [lookupField] at h
  | cons p rest ih =>
    obtain ⟨k, w⟩ := p
    unfold lookupField at h
    split at h
    · cases h
      simp only [List.cons.sizeOf_spec, Prod.mk.sizeOf_spec]
      omega
    · have := ih h
      simp only [List.cons.sizeOf_spec, Prod.mk.sizeOf_spec]
      omega

/-- Python str.startswith over the characters. -/
def pyStartsWith (s pre : String) : Bool := pre.data.isPrefixOf s.data

/-- Python slicing s[n:] over the characters. -/
def pyDrop (s : String) (n : Nat) : String := String.mk (s.data.drop n)

/-- A raw backend payload string: either decodes to a document or fails. -/
inductive RawValue where
  | invalid (s : String)
  | valid (d : Doc)

/-- Error classification of exceptions.py: RemoteMessageHandlerError is
raised for errors directly caused by messages from the client,
InternalMessageHandlerError for errors caused by internal sources. -/
inductive HandlerError where
  | remote
  | internal
deriving DecidableEq

/-- An outbound frame as built by WebsocketHandlerBase._send (the
timestamp field is real time and is not modelled). -/
structure Frame where
  source : String
  content : Option Doc
  client_reference : Option String

/-- The backend keyed-value store interface used by GET and PGET:
hget(channel, ref) and hvals(channel).  hvals may be absent (the code
guards values is not None). -/
structure RedisStore where
  hget : String → String → Option RawValue
  hvals : String → Option (List RawValue)

/-- A filter entry of self.filters: called with the decoded document,
returns its boolean verdict and the (possibly mutated in place) document. -/
abbrev Filter := Doc → Bool × Doc

/-- The filter loop inside WebsocketHandlerBase._apply_filters:
all(func(data) for name, func in self.filters.items() if name not in exclude).
Pythons all short-circuits at the first False; mutations performed by the
filters that already ran (including the failing one) persist in the
returned document. -/
def applyFilterList (filters : List (String × Filter)) (exclude : List String)
    (data : Doc) : Bool × Doc :=
  match filters with
  | [] => (true, data)
  | (name, f) :: rest =>
    if exclude.contains name then applyFilterList rest exclude data
    else
      let r := f data
      if r.1 then applyFilterList rest exclude r.2 else (false, r.2)

/-- WebsocketHandlerBase._apply_filters: returns (passed, result).  A None
message short-circuits to (False, None); a decode failure raises
InternalMessageHandlerError; otherwise all non-excluded filters are run
over the decoded document. -/
def apply_filters (filters : List (String × Filter)) (exclude : List String)
    (message : Option RawValue) : Except HandlerError (Bool × Option Doc) :=
  match message with
  | none => .ok (false, none)
  | some (.invalid _) => .error .internal
  | some (.valid d) =>
    let r := applyFilterList filters exclude d
    .ok (r.1, some r.2)

/-- BoundingBox of geo_protocol.py. -/
structure BoundingBox where
  left : ℚ
  bottom : ℚ
  right : ℚ
  top : ℚ

/-- GeoCommandsMixin._is_collection: data is a dict whose type field is
the string FeatureCollection. -/
def is_collection : Doc → Bool
  | .obj fields =>
    match lookupField fields "type" with
    | some (.str s) => s = "FeatureCollection"
    | _ => false
  | _ => false

/-- GeoCommandsMixin._feature_type: the geometry type of a Feature dict,
None otherwise.  Where Python would raise a KeyError (a Feature without a
geometry dict or geometry type) we also return none; no claim exercises
those malformed shapes. -/
def feature_type : Doc → Option String
  | .obj fields =>
    match lookupField fields "type" with
    | some (.str t) =>
      if t = "Feature" then
        match lookupField fields "geometry" with
        | some (.obj g) =>
          match lookupField g "type" with
          | some (.str gt) => some gt
          | _ => none
        | _ => none
      else none
    | _ => none
  | _ => none

/-- Unpacking x, y = point for a GeoJSON coordinate pair. -/
def asPoint : Doc → Option (ℚ × ℚ)
  | .arr [.num x, .num y] => some (x, y)
  | _ => none

/-- GeoCommandsMixin._point_in_bbox: strict comparisons on all four sides. -/
def point_in_bbox (point : ℚ × ℚ) (bbox : BoundingBox) : Bool :=
  decide (point.1 > bbox.left) && decide (point.1 < bbox.right) &&
    decide (point.2 > bbox.bottom) && decide (point.2 < bbox.top)

/-- Point test over a coordinate document (unpack then _point_in_bbox);
malformed coordinate pairs make Python raise, mapped to false here (no
claim exercises them). -/
def docPointInBbox (bbox : BoundingBox) (p : Doc) : Bool :=
  match asPoint p with
  | some xy => point_in_bbox xy bbox
  | none => false

/-- GeoCommandsMixin._feature_coords_in_bbox: Polygon is an existential
over rings and vertices, LineString over vertices, Point is the plain
point test; any other type raises NotImplementedError, modelled as none.
Where Python would raise on malformed coordinate containers we return
some false; no claim exercises those shapes. -/
def feature_coords_in_bbox (bbox : BoundingBox) (ftype : String) (coords : Doc) :
    Option Bool :=
  if ftype = "Polygon" then
    some (match coords with
      | .arr rings => rings.any fun ring =>
          match ring with
          | .arr points => points.any (docPointInBbox bbox)
          | _ => false
      | _ => false)
  else if ftype = "LineString" then
    some (match coords with
      | .arr points => points.any (docPointInBbox bbox)
      | _ => false)
  else if ftype = "Point" then
    some (docPointInBbox bbox coords)
  else none

/-- data[geometry][coordinates] read. -/
def getCoordinates (data : Doc) : Option Doc :=
  match data with
  | .obj fields =>
    match lookupField fields "geometry" with
    | some (.obj g) => lookupField g "coordinates"
    | _ => none
  | _ => none

/-- The Multi-geometry branch of _bbox_filter: any over the contained
sub-geometries, scanning in order; the NotImplementedError raised by an
unsupported sub-type is caught by the enclosing try of _bbox_filter which
then falls through to return True. -/
def bboxScanMulti (bbox : BoundingBox) (subtype : String) : List Doc → Bool
  | [] => false
  | item :: rest =>
    match feature_coords_in_bbox bbox subtype item with
    | some true => true
    | some false => bboxScanMulti bbox subtype rest
    | none => true

/-- GeoCommandsMixin._bbox_filter with the bbox argument resolved (the
Python default bbox or self.bbox reads the instance attribute): a
FeatureCollection passes iff any member passes (recursively); a Feature
with an installed bbox dispatches on geometry type, treating an
unsupported type as a pass; anything else passes.  Where Python would
raise on malformed documents (a collection without a features list, a
feature without retrievable coordinates) we return the stated defaults;
no claim exercises those shapes. -/
def bbox_filter (bbox : Option BoundingBox) (data : Doc) : Bool :=
  if is_collection data then
    match data with
    | .obj fields =>
      match h : lookupField fields "features" with
      | some (.arr features) => features.attach.any fun f => bbox_filter bbox f.1
      | _ => false
    | _ => false
  else
    match feature_type data with
    | none => true
    | some ftype =>
      match bbox with
      | none => true
      | some bb =>
        if pyStartsWith ftype "Multi" then
          match getCoordinates data with
          | some (.arr items) => bboxScanMulti bb (pyDrop ftype 5) items
          | _ => true
        else
          match getCoordinates data with
          | some coords => (feature_coords_in_bbox bb ftype coords).getD true
          | none => true
termination_by sizeOf data
decreasing_by
  have h1 := List.sizeOf_lt_of_mem f.2
  have h2 := lookupField_sizeOf h
  simp only [Doc.obj.sizeOf_spec, Doc.arr.sizeOf_spec] at *
  omega

/-- The default geographic reference identifier of GeoCommandsMixin. -/
def default_projection : String := "epsg:4326"

/-- A coordinate transformation family, modelling the external pyproj
transform: given the input and output reference identifiers, map one
coordinate pair.  get_projection is an lru_cache keyed by the identifier
string, so Proj objects correspond one-to-one to identifiers and are
modelled by the identifiers themselves; the equality test against
get_projection(default) becomes equality of identifiers. -/
def TransformFamily := String → String → ℚ × ℚ → ℚ × ℚ

/-- transform_func(*point) on one coordinate pair document; tuples
serialize back to arrays.  Malformed pairs make Python raise and are left
unchanged here; no claim exercises them. -/
def transformPoint (tf : TransformFamily) (pout : String) (p : Doc) : Doc :=
  match p with
  | .arr [.num x, .num y] =>
    let q := tf default_projection pout (x, y)
    .arr [.num q.1, .num q.2]
  | other => other

/-- GeoCommandsMixin._transform_coords: identity when the requested
output projection is the default; otherwise maps the pyproj transform
(from the fixed input reference, to projection_out or self.projection_out)
over the coordinates of the supported geometry types; an unsupported type
raises NotImplementedError, modelled as none. -/
def transform_coords (tf : TransformFamily) (selfOut : Option String)
    (ftype : String) (coords : Doc) (projection_out : Option String) : Option Doc :=
  if projection_out = some default_projection then some coords
  else
    let pout := (projection_out.orElse fun _ => selfOut).getD default_projection
    if ftype = "LineString" then
      some (match coords with
        | .arr points => .arr (points.map (transformPoint tf pout))
        | other => other)
    else if ftype = "Polygon" then
      some (match coords with
        | .arr rings => .arr (rings.map fun ring =>
            match ring with
            | .arr points => .arr (points.map (transformPoint tf pout))
            | other => other)
        | other => other)
    else if ftype = "Point" then
      some (transformPoint tf pout coords)
    else none

/-- data[geometry][coordinates] = coords assignment. -/
def setCoordinates (data : Doc) (coords : Doc) : Doc :=
  match data with
  | .obj fields =>
    match lookupField fields "geometry" with
    | some (.obj g) =>
      .obj (setField fields "geometry" (.obj (setField g "coordinates" coords)))
    | _ => data
  | _ => data

/-- The Multi-geometry list comprehension of _projection_filter: all items
transformed, or none if any raises NotImplementedError (in which case the
assignment never happens and the document is left untouched). -/
def transformMulti (tf : TransformFamily) (selfOut : Option String)
    (subtype : String) (pout : Option String) : List Doc → Option (List Doc)
  | [] => some []
  | item :: rest =>
    match transform_coords tf selfOut subtype item pout with
    | none => none
    | some item2 => (transformMulti tf selfOut subtype pout rest).map (item2 :: ·)

/-- GeoCommandsMixin._projection_filter with self.projection_out resolved
to selfOut and the projection_out keyword argument as pout: recursively
transforms FeatureCollections member-wise (all of a fully evaluated list,
so every member is transformed), rewrites the coordinates of a Feature in
place when an output projection is configured, catches the
NotImplementedError of unsupported types leaving the document untouched,
and always reports True (it filters nothing, only transforms). -/
def projection_filter (tf : TransformFamily) (selfOut : Option String)
    (pout : Option String) (data : Doc) : Bool × Doc :=
  if is_collection data then
    match data with
    | .obj fields =>
      match h : lookupField fields "features" with
      | some (.arr features) =>
        let results := features.attach.map fun f =>
          projection_filter tf selfOut pout f.1
        (results.all Prod.fst,
          .obj (setField fields "features" (.arr (results.map Prod.snd))))
      | _ => (true, data)
    | _ => (true, data)
  else
    if pout.isSome || selfOut.isSome then
      match feature_type data with
      | none => (true, data)
      | some ftype =>
        if pyStartsWith ftype "Multi" then
          match getCoordinates data with
          | some (.arr items) =>
            match transformMulti tf selfOut (pyDrop ftype 5) pout items with
            | some items2 => (true, setCoordinates data (.arr items2))
            | none => (true, data)
          | _ => (true, data)
        else
          match getCoordinates data with
          | some coords =>
            match transform_coords tf selfOut ftype coords pout with
            | some coords2 => (true, setCoordinates data coords2)
            | none => (true, data)
          | none => (true, data)
    else (true, data)
termination_by sizeOf data
decreasing_by
  have h1 := List.sizeOf_lt_of_mem f.2
  have h2 := lookupField_sizeOf h
  simp only [Doc.obj.sizeOf_spec, Doc.arr.sizeOf_spec] at *
  omega

/-- The per-connection state of a WebsocketHandler (with GeoCommandsMixin):
the allow-listed command tuple, the channel_names set backing
channel_is_allowed, the ordered filter dict, the subscription set, the
projection_out attribute and the redis client.  The asyncio queue and
tasks are part of the concurrency machinery, not of the state the claims
are about. -/
structure HandlerState where
  allowed_commands : List String
  channel_names : List String
  filters : List (String × Filter)
  subscriptions : List String
  projection_out : Option String
  redis : RedisStore

/-- WebsocketHandler.channel_is_allowed: membership in channel_names. -/
def channel_is_allowed (st : HandlerState) (channel_name : String) : Bool :=
  st.channel_names.contains channel_name

/-- Python str.isspace characters relevant to str.split(). -/
def pyIsSpace (c : Char) : Bool :=
  c = ' ' || c = '\t' || c = '\n' || c = '\r' || c = '\x0b' || c = '\x0c'

/-- Python str.split() with no separator: split on runs of whitespace,
producing no empty tokens. -/
def pySplitAux : List Char → List Char → List String
  | [], acc => if acc.isEmpty then [] else [String.mk acc.reverse]
  | c :: rest, acc =>
    if pyIsSpace c then
      if acc.isEmpty then pySplitAux rest []
      else String.mk acc.reverse :: pySplitAux rest []
    else pySplitAux rest (c :: acc)

def pySplit (s : String) : List String := pySplitAux s.data []

/-- Python "=" in arg. -/
def hasEq (s : String) : Bool := s.data.any (· = '=')

/-- arg.split("=", 1) on the character list: the part before the first
'=' and the remainder after it. -/
def breakEq : List Char → List Char × List Char
  | [] => ([], [])
  | c :: rest =>
    if c = '=' then ([], rest)
    else
      let r := breakEq rest
      (c :: r.1, r.2)

def splitEqFirst (s : String) : String × String :=
  let r := breakEq s.data
  (String.mk r.1, String.mk r.2)

/-- kwargs[name] = value on an insertion-ordered association list: later
assignments to the same name overwrite. -/
def setKw : List (String × String) → String → String → List (String × String)
  | [], k, v => [(k, v)]
  | (k2, v2) :: rest, k, v =>
    if k2 = k then (k, v) :: rest else (k2, v2) :: setKw rest k v

/-- The argument loop of _parse_remote_message: tokens containing '='
become named arguments (split on the first '='), the rest are appended
positionally in order. -/
def parseArgsLoop : List String → List String × List (String × String) →
    List String × List (String × String)
  | [], acc => acc
  | a :: rest, (args, kwargs) =>
    if hasEq a then
      parseArgsLoop rest (args, setKw kwargs (splitEqFirst a).1 (splitEqFirst a).2)
    else parseArgsLoop rest (args ++ [a], kwargs)

/-- WebsocketHandlerBase._parse_remote_message: the first whitespace
token is the command, the rest split into positional and named
arguments.  Unpacking command, *arguments from an empty split raises a
ValueError, modelled as none. -/
def parse_remote_message (message : String) :
    Option (String × List String × List (String × String)) :=
  match pySplit message with
  | [] => none
  | command :: arguments => some (command, parseArgsLoop arguments ([], []))

/-- Binding one kwarg to the parameter list of a handler (the Python
call protocol): unknown names and parameters already filled are
TypeErrors, modelled as none. -/
def setParam : List String → List (Option String) → String → String →
    Option (List (Option String))
  | [], _, _, _ => none
  | _, [], _, _ => none
  | p :: ps, x :: xs, k, v =>
    if p = k then
      match x with
      | some _ => none
      | none => some (some v :: xs)
    else (setParam ps xs k v).map (x :: ·)

def assignKwargs (params : List String) :
    List (String × String) → List (Option String) → Option (List (Option String))
  | [], vals => some vals
  | (k, v) :: rest, vals =>
    match setParam params vals k v with
    | none => none
    | some vals2 => assignKwargs params rest vals2

/-- Binding handler(*args, **kwargs) against a parameter list whose
parameters beyond the positional arguments default to None: too many
positional arguments, unknown keyword names and duplicate assignments
are TypeErrors, modelled as none. -/
def bindArgs (params : List String) (args : List String)
    (kwargs : List (String × String)) : Option (List (Option String)) :=
  if args.length ≤ params.length then
    assignKwargs params kwargs
      (args.map some ++ List.replicate (params.length - args.length) none)
  else none

/-- CommandsMixin._handle_sub_command: add the channel to the
subscription set iff channel_is_allowed accepts it. -/
def handle_sub_command (st : HandlerState) (channel_name : String) : HandlerState :=
  if channel_is_allowed st channel_name then
    if st.subscriptions.contains channel_name then st
    else { st with subscriptions := st.subscriptions ++ [channel_name] }
  else st

/-- CommandsMixin._handle_del_command: discard the channel from the
subscription set (absent entries are a silent no-op). -/
def handle_del_command (st : HandlerState) (channel_name : String) : HandlerState :=
  { st with subscriptions := st.subscriptions.erase channel_name }

/-- The PONG frame sent by CommandsMixin._handle_ping_command. -/
def pongFrame : Frame := ⟨"websocket", some (.str "PONG"), none⟩

/-- The loop of _handle_get_command without ref: one frame per value that
passes the filters, in store order; a decode failure raises out of the
loop. -/
def getFrames (filters : List (String × Filter)) (channel_name : String)
    (client_ref : Option String) : List RawValue → Except HandlerError (List Frame)
  | [] => .ok []
  | v :: rest =>
    match apply_filters filters [] (some v) with
    | .error e => .error e
    | .ok (passed, data) =>
      match getFrames filters channel_name client_ref rest with
      | .error e => .error e
      | .ok fs => .ok (if passed then ⟨channel_name, data, client_ref⟩ :: fs else fs)

/-- CommandsMixin._handle_get_command.  With a ref: one hget, the filter
verdict is discarded (underscore assignment in the source) and the
decoded data is sent unconditionally with source channel ref.  Without a
ref: hvals, one frame per passing value, and a null frame if nothing was
sent.  A channel that is not allowed is a silent no-op. -/
def handle_get_command (st : HandlerState) (channel_name : String)
    (ref client_ref : Option String) : Except HandlerError (List Frame) :=
  if channel_is_allowed st channel_name = false then .ok []
  else
    match ref with
    | some r =>
      match apply_filters st.filters [] (st.redis.hget channel_name r) with
      | .error e => .error e
      | .ok (_, data) => .ok [⟨channel_name ++ " " ++ r, data, client_ref⟩]
    | none =>
      match st.redis.hvals channel_name with
      | none => .ok [⟨channel_name, none, client_ref⟩]
      | some values =>
        match getFrames st.filters channel_name client_ref values with
        | .error e => .error e
        | .ok frames =>
          .ok (if frames.isEmpty then [⟨channel_name, none, client_ref⟩] else frames)

/-- The loop of _handle_pget_command: the persistent filters run with the
projection entry excluded, then passed is overwritten by the return of
_projection_filter with the one-off projection_out (the verdict of the
persistent filters is discarded by this reassignment in the source).
_projection_filter called on a None data returns True leaving it None. -/
def pgetFrames (tf : TransformFamily) (st : HandlerState)
    (projection_out : String) (source : String) (client_ref : Option String) :
    List (Option RawValue) → Except HandlerError (List Frame)
  | [] => .ok []
  | v :: rest =>
    match apply_filters st.filters ["projection"] v with
    | .error e => .error e
    | .ok (_, data) =>
      let r : Bool × Option Doc :=
        match data with
        | some d =>
          let pr := projection_filter tf st.projection_out (some projection_out) d
          (pr.1, some pr.2)
        | none => (true, none)
      match pgetFrames tf st projection_out source client_ref rest with
      | .error e => .error e
      | .ok fs => .ok (if r.1 then ⟨source, r.2, client_ref⟩ :: fs else fs)

/-- GeoCommandsMixin._handle_pget_command: like GET but with a one-off
output projection; ref selects a single hget (possibly absent), otherwise
hvals or the empty tuple; a null frame with the channel as source if
nothing was sent. -/
def handle_pget_command (tf : TransformFamily) (st : HandlerState)
    (channel_name : String) (ref client_ref projection : Option String) :
    Except HandlerError (List Frame) :=
  if channel_is_allowed st channel_name = false then .ok []
  else
    let projection_out := projection.getD default_projection
    let sv : String × List (Option RawValue) :=
      match ref with
      | some r => (channel_name ++ " " ++ r, [st.redis.hget channel_name r])
      | none => (channel_name, ((st.redis.hvals channel_name).getD []).map some)
    match pgetFrames tf st projection_out sv.1 client_ref sv.2 with
    | .error e => .error e
    | .ok frames =>
      .ok (if frames.isEmpty then [⟨channel_name, none, client_ref⟩] else frames)

/-- Dispatch on the lowercased command name, performing the Python call
binding.  Binding failures (TypeError) are exceptions, as is a name with
no handler method (AttributeError from getattr).  The BBOX and PROJECTION
handlers mutate the filter dict through externally resolved projections
and float parsing; no claim dispatches them, so they are not in the
table (no theorem below puts them in an allow-list). -/
def dispatchLower (tf : TransformFamily) (st : HandlerState) (lc : String)
    (args : List String) (kwargs : List (String × String)) :
    Except HandlerError (HandlerState × List Frame) :=
  if lc = "sub" then
    match bindArgs ["channel_name"] args kwargs with
    | some [some ch] => .ok (handle_sub_command st ch, [])
    | _ => .error .remote
  else if lc = "del" then
    match bindArgs ["channel_name"] args kwargs with
    | some [some ch] => .ok (handle_del_command st ch, [])
    | _ => .error .remote
  else if lc = "ping" then
    if kwargs.isEmpty then .ok (st, [pongFrame]) else .error .remote
  else if lc = "get" then
    match bindArgs ["channel_name", "ref", "client_ref"] args kwargs with
    | some [some ch, r, c] =>
      match handle_get_command st ch r c with
      | .error e => .error e
      | .ok frames => .ok (st, frames)
    | _ => .error .remote
  else if lc = "pget" then
    match bindArgs ["channel_name", "ref", "client_ref", "projection"] args kwargs with
    | some [some ch, r, c, p] =>
      match handle_pget_command tf st ch r c p with
      | .error e => .error e
      | .ok frames => .ok (st, frames)
    | _ => .error .remote
  else .error .remote

/-- Python str.lower over the characters (command names are ASCII). -/
def pyLower (s : String) : String := String.mk (s.data.map Char.toLower)

/-- getattr(self, "_handle_{}_command".format(command.lower())) dispatch. -/
def handleCommand (tf : TransformFamily) (st : HandlerState) (command : String)
    (args : List String) (kwargs : List (String × String)) :
    Except HandlerError (HandlerState × List Frame) :=
  dispatchLower tf st (pyLower command) args kwargs

/-- WebsocketHandlerBase._handle_remote_message: parse, silently drop
commands whose name is not in the allow-list (case-sensitive membership),
dispatch, and wrap any exception (the parse ValueError, binding
TypeErrors, and every handler failure including an
InternalMessageHandlerError from decoding) into a
RemoteMessageHandlerError. -/
def handle_remote_message (tf : TransformFamily) (st : HandlerState)
    (message : String) : Except HandlerError (HandlerState × List Frame) :=
  match parse_remote_message message with
  | none => .error .remote
  | some (command, args, kwargs) =>
    if command ∈ st.allowed_commands then
      match handleCommand tf st command args kwargs with
      | .ok r => .ok r
      | .error _ => .error .remote
    else .ok (st, [])

/-- One item of the per-connection inbound queue: a frame received from
the websocket, or a backend message fanned out from a subscribed channel. -/
inductive QueueItem where
  | fromClient (text : String)
  | fromChannel (channel : String) (payload : Option RawValue)

/-- WebsocketHandlerBase._queue_reader: websocket-sourced items go to the
command dispatcher; channel-sourced items go through the filters and are
sent out iff they pass (an InternalMessageHandlerError from decoding
propagates uncaught). -/
def queue_reader (tf : TransformFamily) (st : HandlerState) :
    QueueItem → Except HandlerError (HandlerState × List Frame)
  | .fromClient text => handle_remote_message tf st text
  | .fromChannel ch payload =>
    match apply_filters st.filters [] payload with
    | .error e => .error e
    | .ok (passes, data) => .ok (st, if passes then [⟨ch, data, none⟩] else [])

/-- The status-open frame sent by listen before anything else. -/
def statusOpenFrame : Frame :=
  ⟨"websocket", some (.obj [("status", .str "open")]), none⟩

/-- The frames produced by the listen loop over a queue content: items
processed in FIFO order, stopping at the first uncaught error (which is
fatal to the connection). -/
def processItems (tf : TransformFamily) : HandlerState → List QueueItem → List Frame
  | _, [] => []
  | st, item :: rest =>
    match queue_reader tf st item with
    | .error _ => []
    | .ok r => r.2 ++ processItems tf r.1 rest

/-- WebsocketHandlerBase.listen: the outbound frame sequence of a
session is the status-open frame followed by the frames of the queue
items processed in order. -/
def sessionFrames (tf : TransformFamily) (st : HandlerState)
    (items : List QueueItem) : List Frame :=
  statusOpenFrame :: processItems tf st items

/-! Concrete fixtures used by witnesses and counterexamples. -/

/-- The identity transform family (the concrete transform is irrelevant
wherever the default projection short-circuits). -/
def tfId : TransformFamily := fun _ _ p => p

/-- A transform family shifting the first coordinate by 100, standing in
for an arbitrary externally resolved projection (the spec treats
ProjectionSpec as a cached external transformer). -/
def tfShift : TransformFamily := fun _ _ p => (p.1 + 100, p.2)

/-- A GeoJSON Point Feature document. -/
def pointFeature (x y : ℚ) : Doc :=
  .obj [("type", .str "Feature"),
        ("geometry", .obj [("type", .str "Point"),
                           ("coordinates", .arr [.num x, .num y])])]

def bb14 : BoundingBox := ⟨1, 2, 3, 4⟩

def emptyRedis : RedisStore := ⟨fun _ _ => none, fun _ => none⟩

/-- The bbox filter entry installed by the BBOX command once self.bbox is
the given box. -/
def bboxEntry (bb : BoundingBox) : Filter := fun d => (bbox_filter (some bb) d, d)

/-- The persistent projection filter entry installed by the PROJECTION
command once self.projection_out is the given reference. -/
def projEntry (tf : TransformFamily) (selfOut : String) : Filter :=
  fun d => projection_filter tf (some selfOut) none d

/-! Helper lemmas. -/

/-- Splitting a string of whitespace characters yields no tokens. -/
theorem pySplitAux_ws (cs : List Char) (h : ∀ c ∈ cs, pyIsSpace c = true) :
    pySplitAux cs [] = [] := by
  induction cs with
  | nil => rfl
  | cons c rest ih =>
    have hc := h c (List.mem_cons_self c rest)
    simp only [pySplitAux, hc, if_true, List.isEmpty_nil]
    exact ih fun x hx => h x (List.mem_cons_of_mem c hx)

/-- On a list of decodable values, the GET loop sends exactly the values
that pass the filters, with their filtered documents, in order. -/
theorem getFrames_valid (filters : List (String × Filter)) (ch : String)
    (cref : Option String) (docs : List Doc) :
    getFrames filters ch cref (docs.map RawValue.valid) =
      .ok ((docs.filter fun d => (applyFilterList filters [] d).1).map
            fun d => ⟨ch, some (applyFilterList filters [] d).2, cref⟩) := by
  induction docs with
  | nil => rfl
  | cons d rest ih =>
    simp only [List.map_cons, getFrames, apply_filters, ih, List.filter_cons]
    cases h : (applyFilterList filters [] d).1 <;> simp [h]

/-- When every filter leaves the document unchanged, the filter loop is
the conjunction of the verdicts over all entries, excluded ones
contributing vacuously. -/
theorem applyFilterList_pure (filters : List (String × Filter)) (exclude : List String)
    (d : Doc) (hpure : ∀ p ∈ filters, ∀ x, (p.2 x).2 = x) :
    applyFilterList filters exclude d =
      (filters.all fun p => exclude.contains p.1 || (p.2 d).1, d) := by
  induction filters with
  | nil => rfl
  | cons p rest ih =>
    obtain ⟨name, f⟩ := p
    have hf : (f d).2 = d := hpure (name, f) (List.mem_cons_self _ rest) d
    have ihrest := ih fun q hq x => hpure q (List.mem_cons_of_mem _ hq) x
    have e1 : applyFilterList ((name, f) :: rest) exclude d =
        if exclude.contains name then applyFilterList rest exclude d
        else if (f d).1 then applyFilterList rest exclude (f d).2
        else (false, (f d).2) := rfl
    rw [e1, List.all_cons]
    cases hex : exclude.contains name
    · rw [if_neg (by decide : ¬ (false = true))]
      cases hb : (f d).1
      · rw [if_neg (by decide : ¬ (false = true)), hf]
        simp
      · rw [if_pos rfl, hf, ihrest]
        simp
    · rw [if_pos rfl, ihrest]
      simp

/-- A permutation of a list gives the same conjunction of a predicate. -/
theorem perm_all {α : Type} {l l2 : List α} (h : l.Perm l2) (f : α → Bool) :
    l.all f = l2.all f := by
  have hiff : (l.all f = true) ↔ (l2.all f = true) := by
    simp only [List.all_eq_true]
    exact ⟨fun H x hx => H x (h.mem_iff.mpr hx), fun H x hx => H x (h.mem_iff.mp hx)⟩
  cases hb : l.all f <;> cases hb2 : l2.all f <;> simp_all

/-- A character list that splits into a named argument reassembles from
its parts, and the part before the first equals sign holds none. -/
theorem breakEq_spec (cs : List Char) (h : cs.any (· = '=') = true) :
    cs = (breakEq cs).1 ++ '=' :: (breakEq cs).2 ∧
      (breakEq cs).1.any (· = '=') = false := by
  induction cs with
  | nil => simp at h
  | cons c rest ih =>
    by_cases hc : c = '='
    · subst hc
      simp [breakEq]
    · simp only [List.any_cons, decide_eq_true_eq, hc, false_or] at h
      have hr := ih h
      simp only [breakEq, if_neg hc]
      exact ⟨by rw [List.cons_append, ← hr.1], by simp [hc, hr.2]⟩

/-- A token that splits into a named argument reassembles from its parts,
and the name holds no equals sign. -/
theorem splitEqFirst_spec (t : String) (h : hasEq t = true) :
    t = String.mk ((splitEqFirst t).1.data ++ '=' :: (splitEqFirst t).2.data) ∧
      hasEq (splitEqFirst t).1 = false := by
  obtain ⟨cs⟩ := t
  have hb := breakEq_spec cs (by simpa [hasEq] using h)
  constructor
  · have : cs = (breakEq cs).1 ++ '=' :: (breakEq cs).2 := hb.1
    simp only [splitEqFirst]
    exact congrArg String.mk this
  · simp only [splitEqFirst, hasEq]
    exact hb.2

/-- The positional arguments produced by the argument loop are the
tokens without an equals sign, in order, appended to the accumulator. -/
theorem parseArgsLoop_args (tokens : List String) (args0 : List String)
    (kwargs0 : List (String × String)) :
    (parseArgsLoop tokens (args0, kwargs0)).1 =
      args0 ++ tokens.filter fun a => !hasEq a := by
  induction tokens generalizing args0 kwargs0 with
  | nil => simp [parseArgsLoop]
  | cons a rest ih =>
    cases h : hasEq a
    · rw [show parseArgsLoop (a :: rest) (args0, kwargs0) =
          parseArgsLoop rest (args0 ++ [a], kwargs0) from by simp [parseArgsLoop, h]]
      rw [ih]
      simp [List.filter_cons, h, List.append_assoc]
    · rw [show parseArgsLoop (a :: rest) (args0, kwargs0) =
          parseArgsLoop rest (args0, setKw kwargs0 (splitEqFirst a).1 (splitEqFirst a).2)
          from by simp [parseArgsLoop, h]]
      rw [ih]
      simp [List.filter_cons, h]

/-- Membership in the kwargs map after one assignment. -/
theorem mem_setKw {k v : String} {kv : String × String} :
    ∀ kwargs : List (String × String),
      kv ∈ setKw kwargs k v → kv = (k, v) ∨ kv ∈ kwargs
  | [], h => by simpa [setKw] using h
  | (k2, v2) :: rest, h => by
    by_cases he : k2 = k
    · simp only [setKw, if_pos he] at h
      rcases List.mem_cons.mp h with h | h
      · exact Or.inl h
      · exact Or.inr (List.mem_cons_of_mem _ h)
    · simp only [setKw, if_neg he] at h
      rcases List.mem_cons.mp h with h | h
      · exact Or.inr (List.mem_cons.mpr (Or.inl h))
      · rcases mem_setKw rest h with h2 | h2
        · exact Or.inl h2
        · exact Or.inr (List.mem_cons_of_mem _ h2)

/-- Every named argument produced by the argument loop comes from a
token containing an equals sign, split at its first occurrence. -/
theorem parseArgsLoop_kwargs (tokens : List String) (args0 : List String)
    (kwargs0 : List (String × String)) (kv : String × String)
    (h : kv ∈ (parseArgsLoop tokens (args0, kwargs0)).2) :
    kv ∈ kwargs0 ∨ ∃ t ∈ tokens, hasEq t = true ∧ splitEqFirst t = kv := by
  induction tokens generalizing args0 kwargs0 with
  | nil => exact Or.inl h
  | cons a rest ih =>
    by_cases he : hasEq a = true
    · rw [show parseArgsLoop (a :: rest) (args0, kwargs0) =
          parseArgsLoop rest (args0, setKw kwargs0 (splitEqFirst a).1 (splitEqFirst a).2)
          from by simp [parseArgsLoop, he]] at h
      rcases ih _ _ h with h2 | ⟨t, ht, h3, h4⟩
      · rcases mem_setKw _ h2 with h3 | h3
        · exact Or.inr ⟨a, List.mem_cons_self a rest, he, by rw [h3]⟩
        · exact Or.inl h3
      · exact Or.inr ⟨t, List.mem_cons_of_mem a ht, h3, h4⟩
    · rw [show parseArgsLoop (a :: rest) (args0, kwargs0) =
          parseArgsLoop rest (args0 ++ [a], kwargs0)
          from by simp [parseArgsLoop, he]] at h
      rcases ih _ _ h with h2 | ⟨t, ht, h3, h4⟩
      · exact Or.inl h2
      · exact Or.inr ⟨t, List.mem_cons_of_mem a ht, h3, h4⟩

def st3 : HandlerState :=
  { allowed_commands := ["BBOX", "PROJECTION", "GET", "PGET"]
    channel_names := ["egg"]
    filters := [("bbox", bboxEntry bb14)]
    subscriptions := []
    projection_out := none
    redis := ⟨fun _ _ => none,
              fun ch => if ch = "egg" then some [.valid (pointFeature 5 5)] else none⟩ }

/-! Further fixture states. -/

/-- A fresh connection of the base WebsocketHandler with no allowed
channels and an empty backend. -/
def stEmpty : HandlerState :=
  { allowed_commands := ["SUB", "DEL", "PING", "GET"]
    channel_names := []
    filters := []
    subscriptions := []
    projection_out := none
    redis := emptyRedis }

/-- A connection whose backend holds a value that fails to decode. -/
def stBadValue : HandlerState :=
  { allowed_commands := ["GET"]
    channel_names := ["egg"]
    filters := []
    subscriptions := []
    projection_out := none
    redis := ⟨fun ch r => if ch = "egg" && r = "r" then some (.invalid "nope") else none,
              fun ch => if ch = "egg" then some [.invalid "nope"] else none⟩ }

/-! Claims. -/

/-- C7: for every bounding box and point, the bbox predicate passes iff
left < x < right and bottom < y < top with strict inequalities, so a
point with a coordinate equal to a boundary fails. -/
theorem point_in_bbox_strict (bb : BoundingBox) (x y : ℚ) :
    (point_in_bbox (x, y) bb = true ↔
      (bb.left < x ∧ x < bb.right ∧ bb.bottom < y ∧ y < bb.top)) ∧
    ((x = bb.left ∨ x = bb.right ∨ y = bb.bottom ∨ y = bb.top) →
      point_in_bbox (x, y) bb = false) := by
  constructor
  · simp only [point_in_bbox, Bool.and_eq_true, decide_eq_true_iff]
    constructor
    · rintro ⟨⟨⟨h1, h2⟩, h3⟩, h4⟩
      exact ⟨h1, h2, h3, h4⟩
    · rintro ⟨h1, h2, h3, h4⟩
      exact ⟨⟨⟨h1, h2⟩, h3⟩, h4⟩
  · intro h
    simp only [point_in_bbox, Bool.and_eq_false_iff, decide_eq_false_iff_not, not_lt]
    rcases h with h | h | h | h <;> subst h <;> simp

/-- Witness for C7 at BBOX 1 2 3 4: the point (2.1, 3.5) passes, the
boundary point with x = 1 fails. -/
theorem point_in_bbox_strict_witness :
    point_in_bbox (21/10, 7/2) bb14 = true ∧ point_in_bbox (1, 7/2) bb14 = false :=
  ⟨(point_in_bbox_strict bb14 (21/10) (7/2)).1.mpr (by norm_num [bb14]),
   (point_in_bbox_strict bb14 1 (7/2)).2 (Or.inl (by norm_num [bb14]))⟩

/-- C4: an inbound line whose command name is not in the allow-list
produces zero outbound frames, no error, and leaves the connection state
untouched (the handler returns before dispatch). -/
theorem unknown_command_silently_dropped (tf : TransformFamily) (st : HandlerState)
    (msg cmd : String) (args : List String) (kwargs : List (String × String))
    (hp : parse_remote_message msg = some (cmd, args, kwargs))
    (hc : cmd ∉ st.allowed_commands) :
    handle_remote_message tf st msg = .ok (st, []) := by
  simp [handle_remote_message, hp, hc]

/-- Witness for C4: the unknown command FOO is silently dropped. -/
theorem unknown_command_silently_dropped_witness :
    handle_remote_message tfId stEmpty "FOO bar" = .ok (stEmpty, []) :=
  unknown_command_silently_dropped tfId stEmpty "FOO bar" "FOO" ["bar"] []
    (by decide) (by decide)

/-- C10: an inbound frame that is empty or all whitespace makes parsing
fail (unpacking the first token of an empty split), the failure is
wrapped as a remote protocol error, and the listen loop stops: a blank
line is fatal rather than silently ignored. -/
theorem blank_line_fatal (tf : TransformFamily) (st : HandlerState) (msg : String)
    (rest : List QueueItem) (h : ∀ c ∈ msg.data, pyIsSpace c = true) :
    handle_remote_message tf st msg = .error .remote ∧
    processItems tf st (.fromClient msg :: rest) = [] := by
  have hsplit : pySplit msg = [] := pySplitAux_ws msg.data h
  have hparse : parse_remote_message msg = none := by
    simp [parse_remote_message, hsplit]
  constructor
  · simp [handle_remote_message, hparse]
  · simp [processItems, queue_reader, handle_remote_message, hparse]

/-- Witness for C10: a single-space frame is fatal. -/
theorem blank_line_fatal_witness :
    handle_remote_message tfId stEmpty " " = .error .remote ∧
    processItems tfId stEmpty [.fromClient " "] = [] :=
  blank_line_fatal tfId stEmpty " " [] (by decide)

/-- C8 counterexample: the first outbound frame of a session carries the
source string websocket, not client as the claim states. -/
theorem first_frame_source_cex :
    (sessionFrames tfId stEmpty []).head?.map Frame.source = some "websocket" ∧
    ("websocket" : String) ≠ "client" :=
  ⟨rfl, by decide⟩

/-- C8 amended: the first outbound frame of every session is the
status-open frame (content status open), no other frame precedes it, and
its source is the string websocket. -/
theorem first_frame_status_open (tf : TransformFamily) (st : HandlerState)
    (items : List QueueItem) :
    (sessionFrames tf st items).head? = some statusOpenFrame ∧
    statusOpenFrame.content = some (.obj [("status", .str "open")]) ∧
    statusOpenFrame.source = "websocket" :=
  ⟨rfl, rfl, rfl⟩

/-- C9 counterexample: a backend value that fails to decode while serving
a client GET surfaces as a remote error, not as the internal
classification the claim states. -/
theorem decode_error_in_get_is_remote_cex :
    handle_remote_message tfId stBadValue "GET egg" = .error .remote ∧
    HandlerError.remote ≠ HandlerError.internal :=
  ⟨rfl, by decide⟩

/-- C9 amended: a backend payload that fails to decode is an internal
error and fatal when it arrives through the subscription fan-out, while
any failure inside a dispatched command handler (including the internal
decode failure raised while serving GET or PGET) is wrapped by
_handle_remote_message into a remote error (still fatal). -/
theorem decode_error_classification (tf : TransformFamily) (st : HandlerState)
    (ch s : String) (rest : List QueueItem) (msg cmd : String)
    (args : List String) (kwargs : List (String × String))
    (hp : parse_remote_message msg = some (cmd, args, kwargs))
    (hc : cmd ∈ st.allowed_commands)
    (he : handleCommand tf st cmd args kwargs = .error .internal) :
    queue_reader tf st (.fromChannel ch (some (.invalid s))) = .error .internal ∧
    processItems tf st (.fromChannel ch (some (.invalid s)) :: rest) = [] ∧
    handle_remote_message tf st msg = .error .remote := by
  refine ⟨rfl, rfl, ?_⟩
  simp [handle_remote_message, hp, hc, he]

/-- Witness for C9: a fan-out payload that fails decoding is internal and
stops the loop; the same store value served through GET is remote. -/
theorem decode_error_classification_witness :
    queue_reader tfId stBadValue (.fromChannel "egg" (some (.invalid "nope"))) =
      .error .internal ∧
    processItems tfId stBadValue [.fromChannel "egg" (some (.invalid "nope"))] = [] ∧
    handle_remote_message tfId stBadValue "GET egg" = .error .remote :=
  decode_error_classification tfId stBadValue "egg" "nope" [] "GET egg" "GET"
    ["egg"] [] (by decide) (by decide) rfl

/-- A connection with BBOX 1 2 3 4 installed and a stored value keyed by
r whose Point lies outside the box. -/
def stFilteredRef : HandlerState :=
  { allowed_commands := ["GET"]
    channel_names := ["egg"]
    filters := [("bbox", bboxEntry bb14)]
    subscriptions := []
    projection_out := none
    redis := ⟨fun ch r => if ch = "egg" && r = "r" then some (.valid (pointFeature 5 5))
                          else none,
              fun _ => none⟩ }

/-- C1 counterexample: a GET with a ref whose stored value is present but
rejected by the filter pipeline still sends the decoded value, not null
as the claim states (the source discards the filter verdict with an
underscore assignment). -/
theorem get_ref_ignores_filter_verdict_cex :
    (apply_filters stFilteredRef.filters [] (stFilteredRef.redis.hget "egg" "r")).map
        Prod.fst = .ok false ∧
    handle_get_command stFilteredRef "egg" (some "r") none =
      .ok [⟨"egg r", some (pointFeature 5 5), none⟩] ∧
    some (pointFeature 5 5) ≠ (none : Option Doc) := by
  refine ⟨?_, ?_, by simp⟩
  · simp +decide [stFilteredRef, apply_filters, applyFilterList, bboxEntry, bbox_filter,
      is_collection, lookupField, feature_type, getCoordinates, feature_coords_in_bbox,
      docPointInBbox, asPoint, point_in_bbox, bb14, pointFeature, pyStartsWith,
      Except.map]
  · simp +decide [handle_get_command, channel_is_allowed, stFilteredRef, apply_filters,
      applyFilterList, bboxEntry, bbox_filter, is_collection, lookupField, feature_type,
      getCoordinates, feature_coords_in_bbox, docPointInBbox, asPoint, point_in_bbox,
      bb14, pointFeature, pyStartsWith]

/-- C1 amended: for every GET with a ref on an access-allowed channel,
exactly one outbound frame is sent with source channel-space-ref; its
content is null when the value is absent, and otherwise equals the
decoded value as transformed by the filters that ran, regardless of the
filter verdict. -/
theorem get_ref_sends_exactly_one_frame (st : HandlerState) (ch r : String)
    (cref : Option String) (hall : channel_is_allowed st ch = true) :
    (st.redis.hget ch r = none →
      handle_get_command st ch (some r) cref = .ok [⟨ch ++ " " ++ r, none, cref⟩]) ∧
    (∀ d, st.redis.hget ch r = some (.valid d) →
      handle_get_command st ch (some r) cref =
        .ok [⟨ch ++ " " ++ r, some (applyFilterList st.filters [] d).2, cref⟩]) := by
  constructor
  · intro hv
    simp [handle_get_command, hall, hv, apply_filters]
  · intro d hv
    simp [handle_get_command, hall, hv, apply_filters]

/-- Witness for C1: a missing ref yields the single null frame, a
present decodable value yields the single frame with its content. -/
theorem get_ref_sends_exactly_one_frame_witness :
    handle_get_command stFilteredRef "egg" (some "miss") none =
      .ok [⟨"egg miss", none, none⟩] :=
  (get_ref_sends_exactly_one_frame stFilteredRef "egg" "miss" none rfl).1 rfl

/-- C2: a GET without a ref on an access-allowed channel sends one frame
per stored value that passes the filters (source the channel name, in
store order), and exactly one null frame when no value passes or the
store is absent, so there is always at least one reply. -/
theorem get_all_frames_spec (st : HandlerState) (ch : String) (cref : Option String)
    (docs : List Doc) (hall : channel_is_allowed st ch = true) :
    (st.redis.hvals ch = none →
      handle_get_command st ch none cref = .ok [⟨ch, none, cref⟩]) ∧
    (st.redis.hvals ch = some (docs.map RawValue.valid) →
      handle_get_command st ch none cref =
        .ok (if (docs.filter fun d => (applyFilterList st.filters [] d).1).isEmpty
             then [⟨ch, none, cref⟩]
             else (docs.filter fun d => (applyFilterList st.filters [] d).1).map
                    fun d => ⟨ch, some (applyFilterList st.filters [] d).2, cref⟩) ∧
      ∀ frames, handle_get_command st ch none cref = .ok frames →
        1 ≤ frames.length) := by
  constructor
  · intro hv
    simp [handle_get_command, hall, hv]
  · intro hv
    have hmain : handle_get_command st ch none cref =
        .ok (if (docs.filter fun d => (applyFilterList st.filters [] d).1).isEmpty
             then [⟨ch, none, cref⟩]
             else (docs.filter fun d => (applyFilterList st.filters [] d).1).map
                    fun d => ⟨ch, some (applyFilterList st.filters [] d).2, cref⟩) := by
      simp only [handle_get_command, hall, Bool.true_eq_false, if_false, hv,
        getFrames_valid]
      cases hfe : (docs.filter fun d => (applyFilterList st.filters [] d).1) with
      | nil => simp
      | cons a as => simp
    refine ⟨hmain, ?_⟩
    intro frames hframes
    rw [hmain] at hframes
    cases hframes
    cases hfe : (docs.filter fun d => (applyFilterList st.filters [] d).1) with
    | nil => simp [hfe]
    | cons a as => simp [hfe]

/-- A connection with no filters and one stored value. -/
def stOneValue : HandlerState :=
  { allowed_commands := ["GET"]
    channel_names := ["egg"]
    filters := []
    subscriptions := []
    projection_out := none
    redis := ⟨fun _ _ => none,
              fun ch => if ch = "egg" then some [.valid (.str "hello")] else none⟩ }

/-- Witness for C2: one decodable stored value and no filters yield
exactly that one frame. -/
theorem get_all_frames_spec_witness :
    handle_get_command stOneValue "egg" none none =
      .ok [⟨"egg", some (.str "hello"), none⟩] := by
  have h := ((get_all_frames_spec stOneValue "egg" none [.str "hello"] rfl).2 rfl).1
  simpa using h

/-- C3 (code bug): with BBOX 1 2 3 4 installed and a stored Point outside
the box, GET suppresses the value (single null frame) but PGET still
sends it: the source overwrites the persistent-filter verdict with the
always-true return of the projection filter, so persistent filters do not
determine sending for PGET as the claim states. -/
theorem pget_ignores_persistent_filters :
    bbox_filter (some bb14) (pointFeature 5 5) = false ∧
    handle_pget_command tfId st3 "egg" none none none =
      .ok [⟨"egg", some (pointFeature 5 5), none⟩] ∧
    handle_get_command st3 "egg" none none = .ok [⟨"egg", none, none⟩] := by
  refine ⟨?_, ?_, ?_⟩
  · simp +decide [bbox_filter, is_collection, lookupField, feature_type, getCoordinates,
      feature_coords_in_bbox, docPointInBbox, asPoint, point_in_bbox, bb14, pointFeature,
      pyStartsWith]
  · simp +decide [handle_pget_command, channel_is_allowed, st3, pgetFrames, apply_filters,
      applyFilterList, bboxEntry, bbox_filter, is_collection, lookupField, feature_type,
      getCoordinates, feature_coords_in_bbox, docPointInBbox, asPoint, point_in_bbox,
      bb14, pointFeature, pyStartsWith, projection_filter, transform_coords,
      setCoordinates, setField, default_projection, tfId]
  · simp +decide [handle_get_command, channel_is_allowed, st3, getFrames, apply_filters,
      applyFilterList, bboxEntry, bbox_filter, is_collection, lookupField, feature_type,
      getCoordinates, feature_coords_in_bbox, docPointInBbox, asPoint, point_in_bbox,
      bb14, pointFeature, pyStartsWith]

/-- A base-handler connection (allow-list SUB DEL PING GET) with one
allowed channel and no subscriptions. -/
def stCase : HandlerState :=
  { allowed_commands := ["SUB", "DEL", "PING", "GET"]
    channel_names := ["egg"]
    filters := []
    subscriptions := []
    projection_out := none
    redis := emptyRedis }

/-- C5 counterexample: SUB egg is dispatched (the subscription is added)
while sub egg, differing only in the case of the first token, is
silently dropped with no state change — the allow-list membership is
case-sensitive, so the two lines are not dispatched to the same handler
nor both dropped, contrary to the claim. -/
theorem command_case_sensitivity_cex :
    handle_remote_message tfId stCase "SUB egg" =
      .ok ({ stCase with subscriptions := ["egg"] }, []) ∧
    handle_remote_message tfId stCase "sub egg" = .ok (stCase, []) ∧
    stCase.subscriptions ≠ ["egg"] :=
  ⟨rfl, rfl, by decide⟩

/-- C5 amended: the first whitespace token is the command name; the
allow-list check is case-sensitive, so a casing not in the allow-list is
silently dropped, while any two casings both in the allow-list dispatch
identically because the handler is resolved from the lowercased name;
the remaining tokens are positional unless they contain an equals sign,
which splits them on its first occurrence into a named argument. -/
theorem command_dispatch_casing_and_args (tf : TransformFamily) (st : HandlerState)
    (c1 c2 : String) (args : List String) (kwargs : List (String × String))
    (msg1 msg2 : String) (hl : pyLower c1 = pyLower c2)
    (h1 : c1 ∈ st.allowed_commands) (h2 : c2 ∈ st.allowed_commands)
    (hp1 : parse_remote_message msg1 = some (c1, args, kwargs))
    (hp2 : parse_remote_message msg2 = some (c2, args, kwargs)) :
    handle_remote_message tf st msg1 = handle_remote_message tf st msg2 ∧
    args = ((pySplit msg1).tail.filter fun a => !hasEq a) ∧
    ∀ kv ∈ kwargs, hasEq kv.1 = false ∧
      String.mk (kv.1.data ++ '=' :: kv.2.data) ∈ (pySplit msg1).tail := by
  have hdisp : handleCommand tf st c1 args kwargs = handleCommand tf st c2 args kwargs := by
    simp [handleCommand, hl]
  have hparse : parseArgsLoop (pySplit msg1).tail ([], []) = (args, kwargs) := by
    cases hsp : pySplit msg1 with
    | nil => simp [parse_remote_message, hsp] at hp1
    | cons c restTokens =>
      simp only [parse_remote_message, hsp] at hp1
      have hr := congrArg Prod.snd (Option.some.inj hp1)
      simpa using hr
  refine ⟨by simp [handle_remote_message, hp1, hp2, h1, h2, hdisp], ?_, ?_⟩
  · have hargs := congrArg Prod.fst hparse
    rw [parseArgsLoop_args] at hargs
    simpa using hargs.symm
  · intro kv hkv
    have hkw := congrArg Prod.snd hparse
    simp only at hkw
    rw [← hkw] at hkv
    rcases parseArgsLoop_kwargs (pySplit msg1).tail [] [] kv hkv with
      h0 | ⟨t, ht, heq, hsplit⟩
    · simp at h0
    · have hs := splitEqFirst_spec t heq
      rw [hsplit] at hs
      refine ⟨hs.2, ?_⟩
      rw [← hs.1]
      exact ht

/-- A handler whose allow-list holds both casings of GET. -/
def stBothCase : HandlerState :=
  { stCase with allowed_commands := ["GET", "get"] }

/-- Witness for C5: both allow-listed casings of GET handle identically,
and the positional arguments are the tokens without an equals sign. -/
theorem command_dispatch_casing_and_args_witness :
    handle_remote_message tfId stBothCase "GET egg" =
      handle_remote_message tfId stBothCase "get egg" ∧
    ["egg"] = ((pySplit "GET egg").tail.filter fun a => !hasEq a) := by
  have h := command_dispatch_casing_and_args tfId stBothCase "GET" "get" ["egg"] []
    "GET egg" "get egg" (by decide) (by decide) (by decide) (by decide) (by decide)
  exact ⟨h.1, h.2.1⟩

/-- The box 10 20 30 40 used for the order-dependence counterexample. -/
def bbC6 : BoundingBox := ⟨10, 20, 30, 40⟩

/-- The pipeline bbox-then-projection, as installed by BBOX before
PROJECTION epsg:3857. -/
def pipeBboxFirst : List (String × Filter) :=
  [("bbox", bboxEntry bbC6), ("projection", projEntry tfShift "epsg:3857")]

/-- The same two entries in the opposite insertion order. -/
def pipeProjFirst : List (String × Filter) :=
  [("projection", projEntry tfShift "epsg:3857"), ("bbox", bboxEntry bbC6)]

/-- C6 counterexample: the same two named filter entries in the two
insertion orders give different boolean results on the same decodable
value, because the projection filter mutates the coordinates that the
bbox filter then tests — the result is not order-independent as the
claim states. -/
theorem filter_order_matters_cex :
    pipeBboxFirst.Perm pipeProjFirst ∧
    (apply_filters pipeBboxFirst [] (some (.valid (pointFeature 21 35)))).map
        Prod.fst = .ok true ∧
    (apply_filters pipeProjFirst [] (some (.valid (pointFeature 21 35)))).map
        Prod.fst = .ok false := by
  refine ⟨?_, ?_, ?_⟩
  · unfold pipeBboxFirst pipeProjFirst
    exact List.Perm.swap _ _ _
  · simp +decide [pipeBboxFirst, apply_filters, applyFilterList, bboxEntry, projEntry,
      bbox_filter, projection_filter, is_collection, lookupField, feature_type,
      getCoordinates, feature_coords_in_bbox, docPointInBbox, asPoint, point_in_bbox,
      bbC6, pointFeature, pyStartsWith, transform_coords, transformPoint,
      setCoordinates, setField, default_projection, tfShift, Except.map]
  · simp +decide [pipeProjFirst, apply_filters, applyFilterList, bboxEntry, projEntry,
      bbox_filter, projection_filter, is_collection, lookupField, feature_type,
      getCoordinates, feature_coords_in_bbox, docPointInBbox, asPoint, point_in_bbox,
      bbC6, pointFeature, pyStartsWith, transform_coords, transformPoint,
      setCoordinates, setField, default_projection, tfShift, Except.map]
    norm_num

/-- C6 amended: the pass result is the short-circuit conjunction of the
non-excluded filters evaluated in insertion order on the document as
mutated by the earlier ones; whenever every installed filter leaves the
document unchanged, the boolean result is the same for any two
insertion orders of the same entries. -/
theorem filter_order_irrelevant_for_pure_filters (P1 P2 : List (String × Filter))
    (exclude : List String) (raw : Option RawValue) (hperm : P1.Perm P2)
    (hpure : ∀ p ∈ P1, ∀ x, (p.2 x).2 = x) :
    (apply_filters P1 exclude raw).map Prod.fst =
      (apply_filters P2 exclude raw).map Prod.fst := by
  cases raw with
  | none => rfl
  | some rv =>
    cases rv with
    | invalid s => rfl
    | valid d =>
      have hpure2 : ∀ p ∈ P2, ∀ x, (p.2 x).2 = x := fun p hp x =>
        hpure p (hperm.mem_iff.mpr hp) x
      simp only [apply_filters, applyFilterList_pure P1 exclude d hpure,
        applyFilterList_pure P2 exclude d hpure2,
        perm_all hperm fun p => exclude.contains p.1 || (p.2 d).1]

/-- A filter that always passes and never mutates. -/
def passEntry : Filter := fun d => (true, d)

/-- Witness for C6: two non-mutating entries permuted give the same
boolean verdict. -/
theorem filter_order_irrelevant_for_pure_filters_witness :
    (apply_filters [("bbox", bboxEntry bb14), ("pass", passEntry)] []
        (some (.valid (pointFeature 5 5)))).map Prod.fst =
      (apply_filters [("pass", passEntry), ("bbox", bboxEntry bb14)] []
        (some (.valid (pointFeature 5 5)))).map Prod.fst :=
  filter_order_irrelevant_for_pure_filters _ _ [] _ (List.Perm.swap _ _ _) (by
    intro p hp x
    rcases List.mem_cons.mp hp with h | h
    · rw [h]
      rfl
    · rcases List.mem_cons.mp h with h2 | h2
      · rw [h2]
        rfl
      · exact absurd h2 (List.not_mem_nil p))

end RedisWs
